import Mathlib

/-!
Shallow embedding of `src/convert/generate_geojson_schema.py` (MeteoSwiss/wmdr):
an EA-XMI + XSD to GeoJSON-Schema converter.  Python dicts are modelled as
insertion-ordered association lists, XML trees as a small rose-tree type, and
the schema documents as a JSON value type.
-/

namespace Wmdr

/-- Lookup in an association list, modelling Python `dict.get` (first match;
the insertion discipline below keeps keys unique, so this is dict lookup). -/
def pyGet {α β : Type} [DecidableEq α] (m : List (α × β)) (k : α) : Option β :=
  match m with
  | [] => none
  | (k', v) :: rest => if k = k' then some v else pyGet rest k

/-- Key membership, modelling Python `k in d`. -/
def keyMem {α β : Type} [DecidableEq α] (m : List (α × β)) (k : α) : Bool :=
  (pyGet m k).isSome

/-- Insert or overwrite, modelling Python `d[k] = v` (insertion order kept,
an existing key keeps its position). -/
def insertA {α β : Type} [DecidableEq α] (m : List (α × β)) (k : α) (v : β) : List (α × β) :=
  match m with
  | [] => [(k, v)]
  | (k', v') :: rest => if k = k' then (k', v) :: rest else (k', v') :: insertA rest k v

theorem pyGet_insertA_self {α β : Type} [DecidableEq α] (m : List (α × β)) (k : α) (v : β) :
    pyGet (insertA m k v) k = some v := by
  induction m with
  | nil => simp [insertA, pyGet]
  | cons p rest ih =>
    obtain ⟨k', v'⟩ := p
    by_cases h : k = k'
    · subst h; simp [insertA, pyGet]
    · simp [insertA, pyGet, h, ih]

theorem pyGet_insertA_other {α β : Type} [DecidableEq α] (m : List (α × β)) (k k' : α) (v : β)
    (h : k' ≠ k) : pyGet (insertA m k v) k' = pyGet m k' := by
  induction m with
  | nil => simp [insertA, pyGet, h]
  | cons p rest ih =>
    obtain ⟨k0, v0⟩ := p
    by_cases hk : k = k0
    · subst hk
      simp [insertA, pyGet, h]
    · by_cases hk' : k' = k0 <;> simp [insertA, pyGet, hk, hk', ih]

theorem keyMem_insertA {α β : Type} [DecidableEq α] (m : List (α × β)) (k k' : α) (v : β) :
    keyMem (insertA m k v) k' = (decide (k' = k) || keyMem m k') := by
  by_cases h : k' = k
  · subst h; simp [keyMem, pyGet_insertA_self]
  · simp [keyMem, pyGet_insertA_other m k k' v h, h]

theorem pyGet_some_mem_keys {α β : Type} [DecidableEq α] {m : List (α × β)} {k : α} {v : β}
    (h : pyGet m k = some v) : k ∈ m.map Prod.fst := by
  induction m with
  | nil => simp [pyGet] at h
  | cons p rest ih =>
    obtain ⟨k0, v0⟩ := p
    rw [pyGet] at h
    split at h
    · next heq => subst heq; simp
    · next => simpa using Or.inr (ih h)

theorem pyGet_some_mem {α β : Type} [DecidableEq α] {m : List (α × β)} {k : α} {v : β}
    (h : pyGet m k = some v) : (k, v) ∈ m := by
  induction m with
  | nil => simp [pyGet] at h
  | cons p rest ih =>
    obtain ⟨k0, v0⟩ := p
    rw [pyGet] at h
    split at h
    · next heq =>
        injection h with h2
        subst h2; subst heq; simp
    · next => exact List.mem_cons_of_mem _ (ih h)

theorem mem_insertA {α β : Type} [DecidableEq α] {m : List (α × β)} {k : α} {v : β}
    {p : α × β} (h : p ∈ insertA m k v) : p ∈ m ∨ (p.1 = k ∧ p.2 = v) := by
  induction m with
  | nil =>
    simp [insertA] at h
    subst h; right; exact ⟨rfl, rfl⟩
  | cons q rest ih =>
    obtain ⟨k0, v0⟩ := q
    by_cases hk : k = k0
    · subst hk
      simp only [insertA, if_pos rfl] at h
      rcases List.mem_cons.mp h with h | h
      · subst h; right; exact ⟨rfl, rfl⟩
      · left; exact List.mem_cons_of_mem _ h
    · simp only [insertA, if_neg hk] at h
      rcases List.mem_cons.mp h with h | h
      · subst h; left; simp
      · rcases ih h with h | h
        · left; exact List.mem_cons_of_mem _ h
        · right; exact h

/-- JSON values, as the generator builds them (`json.dump` keeps the dict
insertion order, so objects are ordered key/value lists). -/
inductive Json : Type where
  | str : String → Json
  | num : Int → Json
  | arr : List Json → Json
  | obj : List (String × Json) → Json

/-- Field access on a JSON object (`d[k]` on a dict-valued node). -/
def getKey (j : Json) (k : String) : Option Json :=
  match j with
  | Json.obj l => pyGet l k
  | _ => none

/-- Chained field access. -/
def getPath (j : Json) (ks : List String) : Option Json :=
  ks.foldl (fun acc k => acc.bind (fun d => getKey d k)) (some j)

/-- `prop[k] = v` on a JSON object node (other nodes unchanged; the generator
only ever applies this to objects). -/
def addKey (j : Json) (k : String) (v : Json) : Json :=
  match j with
  | Json.obj l => Json.obj (insertA l k v)
  | other => other

/-- One UML owned attribute, exactly the dict built at lines 52-59 of the
source: `name`, `type`, `aggregation`, xmi `id`, `lower`, `upper`. -/
structure Attr : Type where
  name : String
  type : Option String
  aggregation : Option String
  id : Option String
  lower : Option String
  upper : Option String
deriving DecidableEq

/-- The Model Extractor's lookup tables (`class_ids`, `class_names_by_id`,
`attributes_by_id`, `documentation_by_id`, `inheritance`).  Identifiers come
from `elem.get` and may be Python `None`, hence `Option String` keys. -/
structure Tables : Type where
  class_ids : List (String × Option String)
  class_names_by_id : List (Option String × String)
  attributes_by_id : List (Option String × List Attr)
  documentation_by_id : List (Option String × String)
  inheritance : List (String × String)
deriving DecidableEq

def emptyTables : Tables :=
  { class_ids := [], class_names_by_id := [], attributes_by_id := [],
    documentation_by_id := [], inheritance := [] }

/-- Termination measure of the inheritance walk: inheritance keys not yet
visited. -/
def keysNotVisited (inh : List (String × String)) (visited : List String) : Finset String :=
  (inh.map Prod.fst).toFinset \ visited.toFinset

theorem keysNotVisited_decrease {inh : List (String × String)} {c c2 : String}
    {visited : List String} (hinh : pyGet inh c = some c2) (hv : c ∉ visited) :
    (keysNotVisited inh (c :: visited)).card < (keysNotVisited inh visited).card := by
  apply Finset.card_lt_card
  have hsub : keysNotVisited inh (c :: visited) ⊆ keysNotVisited inh visited := by
    apply Finset.sdiff_subset_sdiff (le_refl _)
    intro x hx
    simp only [List.toFinset_cons] at *
    exact Finset.mem_insert_of_mem hx
  rw [Finset.ssubset_iff_of_subset hsub]
  refine ⟨c, ?_, ?_⟩
  · simp only [keysNotVisited, Finset.mem_sdiff, List.mem_toFinset]
    exact ⟨pyGet_some_mem_keys hinh, hv⟩
  · simp [keysNotVisited]

theorem keysNotVisited_mono (inh : List (String × String)) (c : String) (visited : List String) :
    (keysNotVisited inh (c :: visited)).card ≤ (keysNotVisited inh visited).card := by
  apply Finset.card_le_card
  apply Finset.sdiff_subset_sdiff (le_refl _)
  intro x hx
  simp only [List.toFinset_cons] at *
  exact Finset.mem_insert_of_mem hx

/-- The loop measure: unvisited inheritance keys, with one extra step allowed
for a final `None`/falsy current identifier. -/
def loopMeasure (inh : List (String × String)) (cid : Option String) (visited : List String) : Nat :=
  (keysNotVisited inh visited).card * 2 + (if cid.isSome then 1 else 0)

theorem loopMeasure_decrease (inh : List (String × String)) (c : String) (visited : List String)
    (hv : c ∉ visited) :
    loopMeasure inh (pyGet inh c) (c :: visited) < loopMeasure inh (some c) visited := by
  unfold loopMeasure
  cases h : pyGet inh c with
  | none =>
    have hle := keysNotVisited_mono inh c visited
    simp only [Option.isSome_none, Option.isSome_some]
    simp only [Bool.false_eq_true, if_false, if_true]
    omega
  | some c2 =>
    have hlt := keysNotVisited_decrease h hv
    simp only [Option.isSome_some, if_true]
    omega

/-- The `while` loop of `collect_all_attributes` (lines 77-85): extend with the
current class's own attributes, step to `inheritance.get(cid)`, and re-check the
loop condition (`cid` truthy and not yet visited; Python truthiness fails on
`None` and on the empty string). -/
def collectLoop (t : Tables) (cid : Option String) (visited : List String) : List Attr :=
  match cid with
  | none => []
  | some c =>
    if _hc : c = "" then []
    else if hv : c ∈ visited then []
    else (pyGet t.attributes_by_id (some c)).getD [] ++
      collectLoop t (pyGet t.inheritance c) (c :: visited)
termination_by loopMeasure t.inheritance cid visited
decreasing_by exact loopMeasure_decrease t.inheritance c visited hv

/-- `collect_all_attributes(class_name)`: start the walk at
`class_ids.get(class_name)`. -/
def collect_all_attributes (t : Tables) (class_name : String) : List Attr :=
  collectLoop t (Option.join (pyGet t.class_ids class_name)) []

/-- The sequence of class identifiers the walk of `collect_all_attributes`
visits, in order (specification-side companion of `collectLoop`). -/
def chainLoop (t : Tables) (cid : Option String) (visited : List String) : List String :=
  match cid with
  | none => []
  | some c =>
    if _hc : c = "" then []
    else if hv : c ∈ visited then []
    else c :: chainLoop t (pyGet t.inheritance c) (c :: visited)
termination_by loopMeasure t.inheritance cid visited
decreasing_by exact loopMeasure_decrease t.inheritance c visited hv

/-- The identifier chain that `collect_all_attributes` walks for a class name. -/
def chainOf (t : Tables) (class_name : String) : List String :=
  chainLoop t (Option.join (pyGet t.class_ids class_name)) []

theorem collectLoop_eq_chain (t : Tables) (cid : Option String) (visited : List String) :
    collectLoop t cid visited =
      (chainLoop t cid visited).flatMap (fun c => (pyGet t.attributes_by_id (some c)).getD []) := by
  induction cid, visited using collectLoop.induct t with
  | case1 visited => simp [collectLoop, chainLoop]
  | case2 visited =>
    rw [collectLoop, chainLoop]
    simp
  | case3 visited c hc hv =>
    rw [collectLoop, chainLoop]
    simp [hc, hv]
  | case4 visited c hc hv ih =>
    rw [collectLoop, chainLoop]
    simp [hc, hv, ih]

theorem chainLoop_head (t : Tables) (c : String) (visited : List String)
    (hc : c ≠ "") (hv : c ∉ visited) :
    (chainLoop t (some c) visited).head? = some c := by
  rw [chainLoop]
  simp [hc, hv]

theorem chainLoop_head?_eq (t : Tables) (cid : Option String) (visited : List String) (b : String)
    (h : (chainLoop t cid visited).head? = some b) : cid = some b := by
  cases cid with
  | none => rw [chainLoop] at h; simp at h
  | some c =>
    by_cases h1 : c = ""
    · rw [chainLoop] at h; simp [h1] at h
    · by_cases h2 : c ∈ visited
      · rw [chainLoop] at h; simp [h1, h2] at h
      · rw [chainLoop] at h
        simp only [dif_neg h1, dif_neg h2, List.head?_cons, Option.some.injEq] at h
        rw [h]

theorem chainLoop_nil_cases (t : Tables) (c : String) (visited : List String)
    (h : chainLoop t (some c) visited = []) : c = "" ∨ c ∈ visited := by
  by_contra hcon
  push_neg at hcon
  obtain ⟨h1, h2⟩ := hcon
  rw [chainLoop] at h
  simp [h1, h2] at h

theorem chainLoop_chain' (t : Tables) (cid : Option String) (visited : List String) :
    List.Chain' (fun a b => pyGet t.inheritance a = some b) (chainLoop t cid visited) := by
  induction cid, visited using chainLoop.induct t with
  | case1 v => simp [chainLoop]
  | case2 v => rw [chainLoop]; simp
  | case3 v c hc hv => rw [chainLoop]; simp [hc, hv]
  | case4 v c hc hv ih =>
    rw [chainLoop]
    simp only [dif_neg hc, dif_neg hv]
    rw [List.chain'_cons']
    refine ⟨?_, ih⟩
    intro b hb
    rw [chainLoop_head?_eq t _ _ b hb]

theorem chainLoop_mem_not_visited (t : Tables) (cid : Option String) (visited : List String) :
    ∀ x ∈ chainLoop t cid visited, x ∉ visited := by
  induction cid, visited using chainLoop.induct t with
  | case1 v => simp [chainLoop]
  | case2 v => rw [chainLoop]; simp
  | case3 v c hc hv => rw [chainLoop]; simp [hc, hv]
  | case4 v c hc hv ih =>
    rw [chainLoop]
    simp only [dif_neg hc, dif_neg hv]
    intro x hx
    rcases List.mem_cons.mp hx with rfl | hx
    · exact hv
    · intro hxv
      exact (ih x hx) (List.mem_cons_of_mem _ hxv)

theorem chainLoop_nodup (t : Tables) (cid : Option String) (visited : List String) :
    (chainLoop t cid visited).Nodup := by
  induction cid, visited using chainLoop.induct t with
  | case1 v => simp [chainLoop]
  | case2 v => rw [chainLoop]; simp
  | case3 v c hc hv => rw [chainLoop]; simp [hc, hv]
  | case4 v c hc hv ih =>
    rw [chainLoop]
    simp only [dif_neg hc, dif_neg hv]
    refine List.nodup_cons.mpr ⟨?_, ih⟩
    intro hcmem
    exact (chainLoop_mem_not_visited t _ _ c hcmem) (List.mem_cons_self _ _)

theorem chainLoop_stop (t : Tables) (cid : Option String) (visited : List String) :
    ∀ l, (chainLoop t cid visited).getLast? = some l → ∀ c2, pyGet t.inheritance l = some c2 →
      c2 = "" ∨ c2 ∈ visited ∨ c2 ∈ chainLoop t cid visited := by
  induction cid, visited using chainLoop.induct t with
  | case1 v => simp [chainLoop]
  | case2 v => rw [chainLoop]; simp
  | case3 v c hc hv => rw [chainLoop]; simp [hc, hv]
  | case4 v c hc hv ih =>
    rw [chainLoop]
    simp only [dif_neg hc, dif_neg hv]
    intro l hl c2 hc2
    cases hrest : chainLoop t (pyGet t.inheritance c) (c :: v) with
    | nil =>
      rw [hrest] at hl
      simp only [List.getLast?_singleton, Option.some.injEq] at hl
      subst hl
      rw [hc2] at hrest
      rcases chainLoop_nil_cases t c2 (c :: v) hrest with h | h
      · left; exact h
      · rcases List.mem_cons.mp h with rfl | h
        · right; right; exact List.mem_cons_self _ _
        · right; left; exact h
    | cons a rest' =>
      rw [hrest] at hl
      rw [List.getLast?_cons_cons] at hl
      rw [← hrest] at hl
      rcases ih l hl c2 hc2 with h | h | h
      · left; exact h
      · rcases List.mem_cons.mp h with rfl | h
        · right; right; exact List.mem_cons_self _ _
        · right; left; exact h
      · right; right
        rw [hrest] at h
        exact List.mem_cons_of_mem _ h

theorem chainLoop_length (t : Tables) (cid : Option String) (visited : List String) :
    (chainLoop t cid visited).length ≤ (keysNotVisited t.inheritance visited).card + 1 := by
  induction cid, visited using chainLoop.induct t with
  | case1 v => simp [chainLoop]
  | case2 v => rw [chainLoop]; simp
  | case3 v c hc hv => rw [chainLoop]; simp [hc, hv]
  | case4 v c hc hv ih =>
    rw [chainLoop]
    simp only [dif_neg hc, dif_neg hv, List.length_cons]
    cases hnx : pyGet t.inheritance c with
    | none =>
      rw [chainLoop]
      simp
    | some c2 =>
      rw [hnx] at ih
      have hlt := keysNotVisited_decrease hnx hv
      omega

/-- C5: for every registered class name the flattening walk returns the
subclass-first concatenation of own attribute lists along the inheritance
chain (the chain starting at the class's identifier, each element followed by
its recorded superclass), and stops only at an identifier with no recorded
superclass or at one whose successor was already visited (or is falsy);
an unregistered class name gives the empty sequence. -/
theorem claim_C5 (t : Tables) (name : String) :
    collect_all_attributes t name =
      (chainOf t name).flatMap (fun c => (pyGet t.attributes_by_id (some c)).getD [])
  ∧ (pyGet t.class_ids name = none → collect_all_attributes t name = [])
  ∧ List.Chain' (fun a b => pyGet t.inheritance a = some b) (chainOf t name)
  ∧ (∀ c, Option.join (pyGet t.class_ids name) = some c → c ≠ "" →
      (chainOf t name).head? = some c)
  ∧ (∀ l, (chainOf t name).getLast? = some l → ∀ c2, pyGet t.inheritance l = some c2 →
      c2 = "" ∨ c2 ∈ chainOf t name) := by
  refine ⟨collectLoop_eq_chain t _ [], ?_, chainLoop_chain' t _ [], ?_, ?_⟩
  · intro h
    have hj : Option.join (pyGet t.class_ids name) = none := by rw [h]; rfl
    unfold collect_all_attributes
    rw [hj]
    simp [collectLoop]
  · intro c hjoin hc
    unfold chainOf
    rw [hjoin]
    exact chainLoop_head t c [] hc (by simp)
  · intro l hl c2 hc2
    rcases chainLoop_stop t _ [] l hl c2 hc2 with h | h | h
    · left; exact h
    · simp at h
    · right; exact h

/-- C6: the flattening walk terminates on every model, even one whose
inheritance mapping contains a cycle: the identifier chain it visits has no
duplicates (each class identifier is visited at most once) and its length is
bounded by the number of inheritance entries plus one. -/
theorem claim_C6 (t : Tables) (name : String) :
    (chainOf t name).Nodup ∧ (chainOf t name).length ≤ t.inheritance.length + 1 := by
  constructor
  · exact chainLoop_nodup t _ []
  · have h := chainLoop_length t (Option.join (pyGet t.class_ids name)) []
    have hcard : (keysNotVisited t.inheritance []).card ≤ t.inheritance.length := by
      unfold keysNotVisited
      calc ((t.inheritance.map Prod.fst).toFinset \ [].toFinset).card
          ≤ (t.inheritance.map Prod.fst).toFinset.card := by
            simp
        _ ≤ (t.inheritance.map Prod.fst).length := List.toFinset_card_le _
        _ = t.inheritance.length := List.length_map _ _
    unfold chainOf
    omega

/-- An XML element: the full tag string (namespace in braces when present, as
lxml renders it), the attribute mapping (namespaced attribute names spelled
out), the element text and the child elements, in document order. -/
inductive XElem : Type where
  | mk (tag : String) (attrs : List (String × String)) (text : Option String)
      (children : List XElem) : XElem

def XElem.tag : XElem → String
  | .mk t _ _ _ => t

def XElem.attrs : XElem → List (String × String)
  | .mk _ a _ _ => a

def XElem.text : XElem → Option String
  | .mk _ _ s _ => s

def XElem.children : XElem → List XElem
  | .mk _ _ _ cs => cs

mutual

/-- `root.iter()`: the element followed by all its descendants, document order. -/
def iterElems : XElem → List XElem
  | .mk t a s cs => .mk t a s cs :: iterForest cs

def iterForest : List XElem → List XElem
  | [] => []
  | c :: cs => iterElems c ++ iterForest cs

end

mutual

/-- `root.iter()` paired with each element's parent (`None` for the root),
for the generalization pass's `getparent()`. -/
def pairsOf (p : Option XElem) : XElem → List (Option XElem × XElem)
  | .mk t a s cs => (p, .mk t a s cs) :: pairsForest (.mk t a s cs) cs

def pairsForest (par : XElem) : List XElem → List (Option XElem × XElem)
  | [] => []
  | c :: cs => pairsOf (some par) c ++ pairsForest par cs

end

/-- `etree.QName(tag).localname`: the part after the closing namespace brace
(the whole tag when there is none). -/
def localname (tag : String) : String :=
  match tag.data.dropWhile (fun c => !decide (c = '\x7d')) with
  | [] => tag
  | _ :: rest => String.mk rest

/-- Python `s.endswith(post)`. -/
def strEndsWith (s post : String) : Bool :=
  decide (post.data.length ≤ s.data.length) &&
    decide (s.data.drop (s.data.length - post.data.length) = post.data)

/-- Python `s.strip()`: leading and trailing whitespace removed. -/
def pyStrip (s : String) : String :=
  let ws := fun c : Char => decide (c = ' ') || decide (c = '\t') || decide (c = '\n') ||
    decide (c = '\r') || decide (c = '\x0b') || decide (c = '\x0c')
  String.mk (((s.data.dropWhile ws).reverse.dropWhile ws).reverse)

/-- The XMI namespace brace wrapper used by `elem.get("\x7bhttp://www.omg.org/XMI\x7d...")`. -/
def xmiNS : String := "\x7bhttp://www.omg.org/XMI\x7d"

/-- `sub.find(".//body")`: the first descendant (document order) whose tag is
exactly `body`. -/
def findBody (e : XElem) : Option XElem :=
  (iterForest e.children).find? (fun d => d.tag == "body")

/-- The `ownedAttribute` record built at lines 45-59: `None`-named attributes
are skipped; the stored `lower`/`upper` come from the plain `lower`/`upper`
XML attributes. -/
def ownedAttrRecord (sub : XElem) : Option Attr :=
  match pyGet sub.attrs "name" with
  | none => none
  | some n =>
      some { name := n, type := pyGet sub.attrs "type",
             aggregation := pyGet sub.attrs "aggregation",
             id := pyGet sub.attrs (xmiNS ++ "id"),
             lower := pyGet sub.attrs "lower", upper := pyGet sub.attrs "upper" }

/-- One step of the loop over a class element's direct children (lines 43-63):
accumulate owned attributes in order; an `ownedComment` whose first nested
`body` has truthy text overwrites the pending documentation value. -/
def procChild (st : List Attr × Option String) (sub : XElem) : List Attr × Option String :=
  if localname sub.tag = "ownedAttribute" then
    match ownedAttrRecord sub with
    | none => st
    | some a => (st.1 ++ [a], st.2)
  else if localname sub.tag = "ownedComment" then
    match findBody sub with
    | none => st
    | some b =>
      match b.text with
      | none => st
      | some txt => if txt = "" then st else (st.1, some (pyStrip txt))
  else st

/-- One step of the class-discovery traversal (lines 33-63): a
`packagedElement` of xmi type `uml:Class` with a truthy name registers its
identifier, its direct owned attributes and (when present) its last
documentation candidate. -/
def procElem (acc : Tables) (e : XElem) : Tables :=
  if localname e.tag = "packagedElement" ∧ pyGet e.attrs (xmiNS ++ "type") = some "uml:Class" then
    match pyGet e.attrs "name" with
    | none => acc
    | some cname =>
      if cname = "" then acc
      else
        let class_id := pyGet e.attrs (xmiNS ++ "id")
        let st := e.children.foldl procChild ([], none)
        { acc with
          class_ids := insertA acc.class_ids cname class_id,
          class_names_by_id := insertA acc.class_names_by_id class_id cname,
          attributes_by_id := insertA acc.attributes_by_id class_id st.1,
          documentation_by_id :=
            match st.2 with
            | none => acc.documentation_by_id
            | some d => insertA acc.documentation_by_id class_id d }
  else acc

/-- Python truthiness of an optional string (`None` and `""` are falsy). -/
def truthyS (o : Option String) : Bool :=
  match o with
  | none => false
  | some s => s ≠ ""

/-- One step of the generalization pass (lines 66-75): the subclass identifier
comes from the `owner` attribute, falling back to the parent's xmi id; an edge
is recorded only when both endpoints are truthy. -/
def genStep (acc : List (String × String)) (pe : Option XElem × XElem) : List (String × String) :=
  if localname pe.2.tag = "generalization" then
    let sub0 := pyGet pe.2.attrs "owner"
    let subId := if truthyS sub0 then sub0 else
      match pe.1 with
      | none => sub0
      | some par => pyGet par.attrs (xmiNS ++ "id")
    let supId := pyGet pe.2.attrs "general"
    match subId, supId with
    | some a, some b => if a ≠ "" ∧ b ≠ "" then insertA acc a b else acc
    | _, _ => acc
  else acc

/-- The Model Extractor: the two traversals of
`parse_ea_xmi_to_geojson_schema` over the XMI tree (lines 33-75). -/
def extract (root : XElem) : Tables :=
  let t0 := (iterElems root).foldl procElem emptyTables
  { t0 with inheritance := (pairsOf none root).foldl genStep [] }

/-- `t.split(":", 1)[1]`: everything after the first colon. -/
def afterColon (s : String) : String :=
  String.mk (s.data.dropWhile (fun c => !decide (c = ':'))).tail

/-- The stripped `type` value of an XSD element (lines 92-94): the `type`
attribute with everything up to the first colon removed when a colon occurs
(`t.split(":", 1)[1]`), unchanged otherwise; `None` when absent. -/
def xsdStripped (e : XElem) : Option String :=
  match pyGet e.attrs "type" with
  | none => none
  | some s => if s ≠ "" ∧ s.data.contains ':' then some (afterColon s) else some s

/-- One step of `build_type_map_from_xsd` (lines 90-97): an element whose tag
string ends with `element` and has a `name` attribute contributes
`name -> stripped type` when the stripped type is truthy. -/
def xsdStep (acc : List (String × String)) (e : XElem) : List (String × String) :=
  if strEndsWith e.tag "element" ∧ keyMem e.attrs "name" then
    match xsdStripped e with
    | none => acc
    | some s =>
      if s = "" then acc
      else
        match pyGet e.attrs "name" with
        | none => acc
        | some nm => insertA acc nm s
  else acc

/-- `build_type_map_from_xsd` (lines 87-98). -/
def build_type_map_from_xsd (root : XElem) : List (String × String) :=
  (iterElems root).foldl xsdStep []

/-- The static primitive-name to JSON-fragment table (lines 100-110). -/
def xsd_to_json_type : List (String × Json) :=
  [ ("boolean", Json.obj [("type", Json.str "boolean")]),
    ("string", Json.obj [("type", Json.str "string")]),
    ("decimal", Json.obj [("type", Json.str "number")]),
    ("float", Json.obj [("type", Json.str "number")]),
    ("double", Json.obj [("type", Json.str "number")]),
    ("int", Json.obj [("type", Json.str "integer")]),
    ("integer", Json.obj [("type", Json.str "integer")]),
    ("date", Json.obj [("type", Json.str "string"), ("format", Json.str "date")]),
    ("dateTime", Json.obj [("type", Json.str "string"), ("format", Json.str "date-time")]) ]

/-- `infer_json_type` (lines 114-126): a composite aggregation whose type
identifier names a known class gives a `$ref` (array-wrapped unless
`upper == "1"`); otherwise an XSD name match gives the primitive fragment
(string-typed fallback; array-wrapped unless `upper == "1"`); otherwise a bare
string fragment. -/
def infer_json_type (t : Tables) (xsd_type_map : List (String × String)) (attr : Attr) : Json :=
  if attr.aggregation = some "composite" ∧ (pyGet t.class_names_by_id attr.type).isSome then
    let ref := Json.obj [("$ref", Json.str ("#/$defs/" ++ ((pyGet t.class_names_by_id attr.type).getD "")))]
    if attr.upper ≠ some "1" then Json.obj [("type", Json.str "array"), ("items", ref)] else ref
  else
    match pyGet xsd_type_map attr.name with
    | some xsd_type =>
      let base := (pyGet xsd_to_json_type xsd_type).getD (Json.obj [("type", Json.str "string")])
      if attr.upper ≠ some "1" then Json.obj [("type", Json.str "array"), ("items", base)] else base
    | none => Json.obj [("type", Json.str "string")]

/-- Attach the documentation entry for the attribute's id as `description`
when it is truthy (lines 135-137). -/
def withDoc (t : Tables) (prop : Json) (attrId : Option String) : Json :=
  match pyGet t.documentation_by_id attrId with
  | some d => if d = "" then prop else addKey prop "description" (Json.str d)
  | none => prop

/-- Python truthiness-and-exclusion test of line 133. -/
def pyIncluded (exclude : Option (List String)) (name : String) : Bool :=
  !decide (name = "") && (match exclude with
    | none => true
    | some ex => !decide (name ∈ ex))

/-- One step of the loop of `attrs_to_json_schema` (lines 131-140). -/
def attrStep (t : Tables) (xm : List (String × String)) (exclude : Option (List String))
    (acc : List (String × Json) × List String) (attr : Attr) :
    List (String × Json) × List String :=
  if pyIncluded exclude attr.name then
    let prop := withDoc t (infer_json_type t xm attr) attr.id
    (insertA acc.1 attr.name prop,
     if attr.lower = none ∨ attr.lower = some "0" then acc.2 else acc.2 ++ [attr.name])
  else acc

/-- `attrs_to_json_schema` (lines 128-141): the property map and the required
list built from an ordered attribute list. -/
def attrs_to_json_schema (t : Tables) (xm : List (String × String)) (attr_list : List Attr)
    (exclude : Option (List String)) : List (String × Json) × List String :=
  attr_list.foldl (attrStep t xm exclude) ([], [])

/-- The `geometry` sub-schema (GeoJSON Point), as in both output modes. -/
def geometryShape : Json :=
  Json.obj
    [ ("type", Json.str "object"),
      ("properties", Json.obj
        [ ("type", Json.obj [("type", Json.str "string"), ("enum", Json.arr [Json.str "Point"])]),
          ("coordinates", Json.obj
            [ ("type", Json.str "array"),
              ("items", Json.obj [("type", Json.str "number")]),
              ("minItems", Json.num 2),
              ("maxItems", Json.num 3) ]) ]),
      ("required", Json.arr [Json.str "type", Json.str "coordinates"]) ]

/-- ObservingFacility's unified-mode property map after the hardcoded
`equipment`/`observation` overrides (lines 267-271). -/
def unified_obs_props (t : Tables) (xm : List (String × String)) : List (String × Json) :=
  let p := (attrs_to_json_schema t xm (collect_all_attributes t "ObservingFacility")
    (some ["geospatialLocation"])).1
  let p1 := if keyMem p "equipment" then
    insertA p "equipment" (Json.obj [("type", Json.str "array"),
      ("items", Json.obj [("$ref", Json.str "#/$defs/Equipment")])]) else p
  if keyMem p1 "observation" then
    insertA p1 "observation" (Json.obj [("type", Json.str "array"),
      ("items", Json.obj [("$ref", Json.str "#/$defs/Observation")])]) else p1

/-- The unified-mode (split_defs=False) schema document (lines 211-271),
overrides applied. -/
def unifiedDoc (t : Tables) (xm : List (String × String)) : Json :=
  Json.obj
    [ ("$schema", Json.str "https://json-schema.org/draft/2020-12/schema"),
      ("$id", Json.str "https://schemas.wmo.int/wmdr/json-schema/FeatureCollection.schema.json"),
      ("title", Json.str "ObservingFacility FeatureCollection"),
      ("type", Json.str "object"),
      ("properties", Json.obj
        [ ("type", Json.obj [("type", Json.str "string"),
            ("enum", Json.arr [Json.str "FeatureCollection"])]),
          ("features", Json.obj
            [ ("type", Json.str "array"),
              ("items", Json.obj
                [ ("type", Json.str "object"),
                  ("properties", Json.obj
                    [ ("type", Json.obj [("type", Json.str "string"),
                        ("enum", Json.arr [Json.str "Feature"])]),
                      ("geometry", Json.obj [("$ref", Json.str "#/$defs/geometry")]),
                      ("properties", Json.obj [("$ref", Json.str "#/$defs/ObservingFacility")]) ]),
                  ("required", Json.arr [Json.str "type", Json.str "geometry", Json.str "properties"]) ]) ]) ]),
      ("required", Json.arr [Json.str "type", Json.str "features"]),
      ("$defs", Json.obj
        [ ("geometry", geometryShape),
          ("Equipment", Json.obj [("type", Json.str "object"),
            ("properties", Json.obj (attrs_to_json_schema t xm (collect_all_attributes t "Equipment") none).1)]),
          ("Observation", Json.obj [("type", Json.str "object"),
            ("properties", Json.obj (attrs_to_json_schema t xm (collect_all_attributes t "Observation") none).1)]),
          ("ObservingFacility", Json.obj [("type", Json.str "object"),
            ("properties", Json.obj (unified_obs_props t xm)),
            ("required", Json.arr ((attrs_to_json_schema t xm
              (collect_all_attributes t "ObservingFacility") (some ["geospatialLocation"])).2.map Json.str)) ]) ]) ]

/-- One per-class schema file of split mode (lines 158-167). -/
def classSchemaDoc (name : String) (props : List (String × Json)) (req : List String) : Json :=
  Json.obj
    [ ("$schema", Json.str "https://json-schema.org/draft/2020-12/schema"),
      ("$id", Json.str ("https://schemas.wmo.int/wmdr/json-schema/" ++ name ++ ".schema.json")),
      ("title", Json.str name),
      ("type", Json.str "object"),
      ("properties", Json.obj props),
      ("required", Json.arr (req.map Json.str)) ]

/-- The split-mode FeatureCollection wrapper document (lines 169-190): its
`geometry` and `properties` slots are relative-file references. -/
def wrapperDoc : Json :=
  Json.obj
    [ ("$schema", Json.str "https://json-schema.org/draft/2020-12/schema"),
      ("$id", Json.str "https://schemas.wmo.int/wmdr/json-schema/FeatureCollection.schema.json"),
      ("title", Json.str "ObservingFacility FeatureCollection"),
      ("type", Json.str "object"),
      ("properties", Json.obj
        [ ("type", Json.obj [("type", Json.str "string"),
            ("enum", Json.arr [Json.str "FeatureCollection"])]),
          ("features", Json.obj
            [ ("type", Json.str "array"),
              ("items", Json.obj
                [ ("type", Json.str "object"),
                  ("properties", Json.obj
                    [ ("type", Json.obj [("type", Json.str "string"),
                        ("enum", Json.arr [Json.str "Feature"])]),
                      ("geometry", Json.obj [("$ref", Json.str "geometry.schema.json")]),
                      ("properties", Json.obj [("$ref", Json.str "ObservingFacility.schema.json")]) ]),
                  ("required", Json.arr [Json.str "type", Json.str "geometry", Json.str "properties"]) ]) ]) ]),
      ("required", Json.arr [Json.str "type", Json.str "features"]) ]

/-- The split-mode geometry schema file (lines 193-208). -/
def geometryDoc : Json :=
  Json.obj
    [ ("$schema", Json.str "https://json-schema.org/draft/2020-12/schema"),
      ("$id", Json.str "https://schemas.wmo.int/wmdr/json-schema/geometry.schema.json"),
      ("title", Json.str "Geometry"),
      ("type", Json.str "object"),
      ("properties", Json.obj
        [ ("type", Json.obj [("type", Json.str "string"), ("enum", Json.arr [Json.str "Point"])]),
          ("coordinates", Json.obj
            [ ("type", Json.str "array"),
              ("items", Json.obj [("type", Json.str "number")]),
              ("minItems", Json.num 2),
              ("maxItems", Json.num 3) ]) ]),
      ("required", Json.arr [Json.str "type", Json.str "coordinates"]) ]

/-- Split mode (lines 151-209): the five documents handed to the writer, as
`(file name, document)` pairs in write order. -/
def splitDocs (t : Tables) (xm : List (String × String)) : List (String × Json) :=
  let ofPR := attrs_to_json_schema t xm (collect_all_attributes t "ObservingFacility")
    (some ["geospatialLocation"])
  let eqPR := attrs_to_json_schema t xm (collect_all_attributes t "Equipment") none
  let obPR := attrs_to_json_schema t xm (collect_all_attributes t "Observation") none
  [ ("ObservingFacility.schema.json", classSchemaDoc "ObservingFacility" ofPR.1 ofPR.2),
    ("Equipment.schema.json", classSchemaDoc "Equipment" eqPR.1 eqPR.2),
    ("Observation.schema.json", classSchemaDoc "Observation" obPR.1 obPR.2),
    ("FeatureCollection.schema.json", wrapperDoc),
    ("geometry.schema.json", geometryDoc) ]

/-- The whole assembly step: the documents a run hands to the file-writing
collaborator, with their file names (the unified document goes to the
caller-supplied output path). -/
def run_docs (t : Tables) (xm : List (String × String)) (output_file : String)
    (split_defs : Bool) : List (String × Json) :=
  if split_defs then splitDocs t xm else [(output_file, unifiedDoc t xm)]

theorem infer_composite_eq (t : Tables) (xm : List (String × String)) (attr : Attr) (n : String)
    (h1 : attr.aggregation = some "composite")
    (h2 : pyGet t.class_names_by_id attr.type = some n) :
    infer_json_type t xm attr =
      (if attr.upper = some "1" then Json.obj [("$ref", Json.str ("#/$defs/" ++ n))]
       else Json.obj [("type", Json.str "array"),
                      ("items", Json.obj [("$ref", Json.str ("#/$defs/" ++ n))])]) := by
  unfold infer_json_type
  rw [h2]
  by_cases hu : attr.upper = some "1"
  · simp [h1, hu]
  · simp [h1, hu]

theorem infer_xsd_eq (t : Tables) (xm : List (String × String)) (attr : Attr) (ty : String)
    (hneg : ¬ (attr.aggregation = some "composite" ∧ (pyGet t.class_names_by_id attr.type).isSome))
    (hty : pyGet xm attr.name = some ty) :
    infer_json_type t xm attr =
      (if attr.upper = some "1"
       then (pyGet xsd_to_json_type ty).getD (Json.obj [("type", Json.str "string")])
       else Json.obj [("type", Json.str "array"),
          ("items", (pyGet xsd_to_json_type ty).getD (Json.obj [("type", Json.str "string")]))]) := by
  unfold infer_json_type
  rw [if_neg hneg, hty]
  by_cases hu : attr.upper = some "1"
  · simp [hu]
  · simp [hu]

/-- C1 (amended): in the composite-reference branch and in the XSD-primitive
branch of `infer_json_type`, the fragment is scalar exactly when `upper`
equals `"1"`; any other `upper` value — the absent one included — wraps the
fragment as an array of that fragment. -/
theorem claim_C1_amended (t : Tables) (xm : List (String × String)) (attr : Attr) :
    (∀ n, attr.aggregation = some "composite" →
      pyGet t.class_names_by_id attr.type = some n →
      infer_json_type t xm attr =
        (if attr.upper = some "1" then Json.obj [("$ref", Json.str ("#/$defs/" ++ n))]
         else Json.obj [("type", Json.str "array"),
                        ("items", Json.obj [("$ref", Json.str ("#/$defs/" ++ n))])]))
  ∧ (∀ ty, ¬ (attr.aggregation = some "composite" ∧ (pyGet t.class_names_by_id attr.type).isSome) →
      pyGet xm attr.name = some ty →
      infer_json_type t xm attr =
        (if attr.upper = some "1"
         then (pyGet xsd_to_json_type ty).getD (Json.obj [("type", Json.str "string")])
         else Json.obj [("type", Json.str "array"),
            ("items", (pyGet xsd_to_json_type ty).getD (Json.obj [("type", Json.str "string")]))])) := by
  constructor
  · intro n h1 h2
    exact infer_composite_eq t xm attr n h1 h2
  · intro ty hneg hty
    exact infer_xsd_eq t xm attr ty hneg hty

def c1Tables : Tables := { emptyTables with class_names_by_id := [(some "T", "Equipment")] }

def c1Attr : Attr :=
  { name := "equipment", type := some "T", aggregation := some "composite",
    id := none, lower := none, upper := none }

/-- C1 counterexample: a composite attribute with an ABSENT `upper` bound is
array-wrapped by `infer_json_type`, not scalar as the claim states. -/
theorem claim_C1_counterexample :
    c1Attr.upper = none
  ∧ infer_json_type c1Tables [] c1Attr =
      Json.obj [("type", Json.str "array"),
                ("items", Json.obj [("$ref", Json.str "#/$defs/Equipment")])]
  ∧ Json.obj [("type", Json.str "array"),
              ("items", Json.obj [("$ref", Json.str "#/$defs/Equipment")])] ≠
      Json.obj [("$ref", Json.str "#/$defs/Equipment")] := by
  refine ⟨rfl, rfl, ?_⟩
  simp

/-- C1 witness: the amended rule evaluated at the concrete fixture. -/
theorem claim_C1_witness :
    infer_json_type c1Tables [] c1Attr =
      Json.obj [("type", Json.str "array"),
                ("items", Json.obj [("$ref", Json.str "#/$defs/Equipment")])] := by
  have h := (claim_C1_amended c1Tables [] c1Attr).1 "Equipment" rfl rfl
  rw [h]
  rfl

/-- C8: split mode hands exactly the five named documents to the writer, in
this order, and the wrapper's `properties.features.items.properties.properties`
is the relative file reference to `ObservingFacility.schema.json`. -/
theorem claim_C8 (t : Tables) (xm : List (String × String)) (out : String) :
    (run_docs t xm out true).map Prod.fst =
      ["ObservingFacility.schema.json", "Equipment.schema.json", "Observation.schema.json",
       "FeatureCollection.schema.json", "geometry.schema.json"]
  ∧ (pyGet (run_docs t xm out true) "FeatureCollection.schema.json").bind
      (fun d => getPath d ["properties", "features", "items", "properties", "properties"]) =
      some (Json.obj [("$ref", Json.str "ObservingFacility.schema.json")]) := by
  constructor
  · rfl
  · rfl

/-- C9 (implicit): a composite attribute resolving to a known class always
produces the internal-pointer reference form `#/$defs/<ClassName>` (scalar or
array-wrapped) — the same `infer_json_type` feeds both output modes — while
none of the three split-mode class files carries a `$defs` key. -/
theorem claim_C9 (t : Tables) (xm : List (String × String)) (attr : Attr) (n : String)
    (h1 : attr.aggregation = some "composite")
    (h2 : pyGet t.class_names_by_id attr.type = some n) :
    (infer_json_type t xm attr = Json.obj [("$ref", Json.str ("#/$defs/" ++ n))] ∨
     infer_json_type t xm attr =
       Json.obj [("type", Json.str "array"),
                 ("items", Json.obj [("$ref", Json.str ("#/$defs/" ++ n))])])
  ∧ ∀ p ∈ (splitDocs t xm).take 3, (getKey p.2 "$defs").isNone = true := by
  constructor
  · have h := infer_composite_eq t xm attr n h1 h2
    by_cases hu : attr.upper = some "1"
    · left; rw [h, if_pos hu]
    · right; rw [h, if_neg hu]
  · intro p hp
    simp [splitDocs] at hp
    rcases hp with rfl | rfl | rfl
    all_goals rfl

def c9Tables : Tables := { emptyTables with class_names_by_id := [(some "E1", "Equipment")] }

def c9Attr : Attr :=
  { name := "equipment", type := some "E1", aggregation := some "composite",
    id := none, lower := some "1", upper := some "*" }

/-- C9 witness: the reference-form fact evaluated at a concrete composite
attribute. -/
theorem claim_C9_witness :
    (infer_json_type c9Tables [] c9Attr =
        Json.obj [("$ref", Json.str ("#/$defs/" ++ "Equipment"))] ∨
     infer_json_type c9Tables [] c9Attr =
       Json.obj [("type", Json.str "array"),
                 ("items", Json.obj [("$ref", Json.str ("#/$defs/" ++ "Equipment"))])])
  ∧ ∀ p ∈ (splitDocs c9Tables []).take 3, (getKey p.2 "$defs").isNone = true :=
  claim_C9 c9Tables [] c9Attr "Equipment" rfl rfl

def c5AttrA : Attr :=
  { name := "a", type := none, aggregation := none, id := none, lower := none, upper := none }

def c5AttrB : Attr :=
  { name := "b", type := none, aggregation := none, id := none, lower := none, upper := none }

def c5Tables : Tables :=
  { class_ids := [("B", some "idB"), ("A", some "idA")],
    class_names_by_id := [(some "idB", "B"), (some "idA", "A")],
    attributes_by_id := [(some "idB", [c5AttrB]), (some "idA", [c5AttrA])],
    documentation_by_id := [],
    inheritance := [("idB", "idA")] }

/-- C5 witness: the flattening characterization applied to a concrete
two-class model (B inherits from A) and to an unregistered name. -/
theorem claim_C5_witness :
    (chainOf c5Tables "B").head? = some "idB"
  ∧ collect_all_attributes c5Tables "B" =
      (chainOf c5Tables "B").flatMap (fun c => (pyGet c5Tables.attributes_by_id (some c)).getD [])
  ∧ collect_all_attributes c5Tables "Z" = [] :=
  ⟨(claim_C5 c5Tables "B").2.2.2.1 "idB" rfl (by decide),
   (claim_C5 c5Tables "B").1,
   (claim_C5 c5Tables "Z").2.1 rfl⟩

theorem unified_obs_props_equipment (t : Tables) (xm : List (String × String))
    (h : keyMem ((attrs_to_json_schema t xm (collect_all_attributes t "ObservingFacility")
      (some ["geospatialLocation"])).1) "equipment" = true) :
    pyGet (unified_obs_props t xm) "equipment" =
      some (Json.obj [("type", Json.str "array"),
        ("items", Json.obj [("$ref", Json.str "#/$defs/Equipment")])]) := by
  simp only [unified_obs_props]
  rw [if_pos h]
  cases hobs : keyMem (insertA (attrs_to_json_schema t xm
      (collect_all_attributes t "ObservingFacility") (some ["geospatialLocation"])).1 "equipment"
      (Json.obj [("type", Json.str "array"),
        ("items", Json.obj [("$ref", Json.str "#/$defs/Equipment")])])) "observation" with
  | true =>
    rw [if_pos rfl]
    rw [pyGet_insertA_other _ _ _ _ (by decide)]
    exact pyGet_insertA_self _ _ _
  | false =>
    rw [if_neg (by simp)]
    exact pyGet_insertA_self _ _ _

theorem unified_obs_props_observation (t : Tables) (xm : List (String × String))
    (h : keyMem ((attrs_to_json_schema t xm (collect_all_attributes t "ObservingFacility")
      (some ["geospatialLocation"])).1) "observation" = true) :
    pyGet (unified_obs_props t xm) "observation" =
      some (Json.obj [("type", Json.str "array"),
        ("items", Json.obj [("$ref", Json.str "#/$defs/Observation")])]) := by
  simp only [unified_obs_props]
  cases heq : keyMem ((attrs_to_json_schema t xm (collect_all_attributes t "ObservingFacility")
      (some ["geospatialLocation"])).1) "equipment" with
  | true =>
    rw [if_pos rfl]
    have hobs : keyMem (insertA (attrs_to_json_schema t xm
        (collect_all_attributes t "ObservingFacility") (some ["geospatialLocation"])).1 "equipment"
        (Json.obj [("type", Json.str "array"),
          ("items", Json.obj [("$ref", Json.str "#/$defs/Equipment")])])) "observation" = true := by
      rw [keyMem_insertA]
      simp [h]
    rw [if_pos hobs]
    exact pyGet_insertA_self _ _ _
  | false =>
    simp only [Bool.false_eq_true, if_false]
    rw [if_pos h]
    exact pyGet_insertA_self _ _ _

theorem unifiedDoc_obs_path (t : Tables) (xm : List (String × String)) (k : String) :
    getPath (unifiedDoc t xm) ["$defs", "ObservingFacility", "properties", k] =
      pyGet (unified_obs_props t xm) k := by
  rfl

/-- C4: in unified mode, whenever the flattened ObservingFacility attribute
list yields a property named `equipment` (resp. `observation`), the final
`$defs.ObservingFacility.properties` entry for that name is the hardcoded
array of `#/$defs/Equipment` (resp. `#/$defs/Observation`) references,
whatever generic inference produced for it. -/
theorem claim_C4 (t : Tables) (xm : List (String × String)) :
    (keyMem ((attrs_to_json_schema t xm (collect_all_attributes t "ObservingFacility")
        (some ["geospatialLocation"])).1) "equipment" = true →
      getPath (unifiedDoc t xm) ["$defs", "ObservingFacility", "properties", "equipment"] =
        some (Json.obj [("type", Json.str "array"),
          ("items", Json.obj [("$ref", Json.str "#/$defs/Equipment")])]))
  ∧ (keyMem ((attrs_to_json_schema t xm (collect_all_attributes t "ObservingFacility")
        (some ["geospatialLocation"])).1) "observation" = true →
      getPath (unifiedDoc t xm) ["$defs", "ObservingFacility", "properties", "observation"] =
        some (Json.obj [("type", Json.str "array"),
          ("items", Json.obj [("$ref", Json.str "#/$defs/Observation")])])) := by
  constructor
  · intro h
    rw [unifiedDoc_obs_path]
    exact unified_obs_props_equipment t xm h
  · intro h
    rw [unifiedDoc_obs_path]
    exact unified_obs_props_observation t xm h

def c4AttrEquip : Attr :=
  { name := "equipment", type := none, aggregation := none, id := none, lower := none, upper := none }

def c4AttrObs : Attr :=
  { name := "observation", type := none, aggregation := none, id := none, lower := none, upper := none }

def c4Tables : Tables :=
  { class_ids := [("ObservingFacility", some "of")],
    class_names_by_id := [(some "of", "ObservingFacility")],
    attributes_by_id := [(some "of", [c4AttrEquip, c4AttrObs])],
    documentation_by_id := [],
    inheritance := [] }

/-- C4 witness: the override evaluated on a concrete model whose
ObservingFacility has `equipment` and `observation` attributes. -/
theorem claim_C4_witness :
    getPath (unifiedDoc c4Tables []) ["$defs", "ObservingFacility", "properties", "equipment"] =
      some (Json.obj [("type", Json.str "array"),
        ("items", Json.obj [("$ref", Json.str "#/$defs/Equipment")])])
  ∧ getPath (unifiedDoc c4Tables []) ["$defs", "ObservingFacility", "properties", "observation"] =
      some (Json.obj [("type", Json.str "array"),
        ("items", Json.obj [("$ref", Json.str "#/$defs/Observation")])]) := by
  have hc : collect_all_attributes c4Tables "ObservingFacility" = [c4AttrEquip, c4AttrObs] := by
    simp [collect_all_attributes, collectLoop, c4Tables, pyGet, Option.join]
  constructor
  · exact (claim_C4 c4Tables []).1 (by rw [hc]; decide)
  · exact (claim_C4 c4Tables []).2 (by rw [hc]; decide)

/-- Whether the attribute's `lower` bound puts its name on the required list
(line 139: `lower not in (None, "0")`). -/
def lowerRequired (a : Attr) : Bool :=
  !decide (a.lower = none ∨ a.lower = some "0")

theorem attrStep_snd (t : Tables) (xm : List (String × String)) (exclude : Option (List String))
    (acc : List (String × Json) × List String) (a : Attr) :
    (attrStep t xm exclude acc a).2 =
      if pyIncluded exclude a.name && lowerRequired a then acc.2 ++ [a.name] else acc.2 := by
  unfold attrStep lowerRequired
  by_cases hinc : pyIncluded exclude a.name = true
  · rw [if_pos hinc]
    by_cases hl : a.lower = none ∨ a.lower = some "0"
    · rw [if_pos hl]
      simp [hinc, hl]
    · rw [if_neg hl]
      simp [hinc, hl]
  · rw [if_neg hinc]
    simp only [Bool.not_eq_true] at hinc
    simp [hinc]

theorem attrs_required_eq (t : Tables) (xm : List (String × String)) (exclude : Option (List String))
    (l : List Attr) (acc : List (String × Json) × List String) :
    (l.foldl (attrStep t xm exclude) acc).2 =
      acc.2 ++ (l.filter (fun a => pyIncluded exclude a.name && lowerRequired a)).map Attr.name := by
  induction l generalizing acc with
  | nil => simp
  | cons a rest ih =>
    rw [List.foldl_cons, ih, List.filter_cons]
    by_cases hcond : (pyIncluded exclude a.name && lowerRequired a) = true
    · rw [if_pos hcond, attrStep_snd, if_pos hcond]
      simp
    · rw [if_neg hcond, attrStep_snd, if_neg hcond]

/-- C7 (amended): the required list holds exactly the names of included
attributes with truthy, non-`"0"` `lower`; for an attribute list whose
included names are distinct this gives the claim's per-attribute iff (with
duplicated names, a namesake's `lower` can put the name on the list). -/
theorem claim_C7_amended (t : Tables) (xm : List (String × String)) (l : List Attr)
    (exclude : Option (List String))
    (hnodup : ((l.filter (fun a => pyIncluded exclude a.name)).map Attr.name).Nodup)
    (attr : Attr) (hmem : attr ∈ l) (hinc : pyIncluded exclude attr.name = true) :
    attr.name ∈ (attrs_to_json_schema t xm l exclude).2 ↔
      (attr.lower ≠ none ∧ attr.lower ≠ some "0") := by
  unfold attrs_to_json_schema
  rw [attrs_required_eq]
  simp only [List.nil_append]
  constructor
  · intro hreq
    rw [List.mem_map] at hreq
    obtain ⟨a', ha'mem, ha'name⟩ := hreq
    rw [List.mem_filter] at ha'mem
    obtain ⟨ha'l, ha'cond⟩ := ha'mem
    rw [Bool.and_eq_true] at ha'cond
    obtain ⟨ha'inc, ha'req⟩ := ha'cond
    have h1 : a' ∈ l.filter (fun a => pyIncluded exclude a.name) :=
      List.mem_filter.mpr ⟨ha'l, ha'inc⟩
    have h2 : attr ∈ l.filter (fun a => pyIncluded exclude a.name) :=
      List.mem_filter.mpr ⟨hmem, hinc⟩
    have heq : a' = attr := List.inj_on_of_nodup_map hnodup h1 h2 ha'name
    subst heq
    unfold lowerRequired at ha'req
    simp only [Bool.not_eq_eq_eq_not, Bool.not_true, decide_eq_false_iff_not] at ha'req
    push_neg at ha'req
    exact ha'req
  · intro hlow
    rw [List.mem_map]
    refine ⟨attr, ?_, rfl⟩
    rw [List.mem_filter]
    refine ⟨hmem, ?_⟩
    rw [Bool.and_eq_true]
    refine ⟨hinc, ?_⟩
    unfold lowerRequired
    simp [hlow.1, hlow.2]

def c7Attr1 : Attr :=
  { name := "a", type := none, aggregation := none, id := none, lower := none, upper := some "1" }

def c7Attr2 : Attr :=
  { name := "a", type := none, aggregation := none, id := none, lower := some "1", upper := some "1" }

/-- C7 counterexample: with two included attributes sharing the name `a`, the
first has an ABSENT `lower` bound, is included in the property map, and yet
its name appears in the required list (put there by its namesake), so the
claim's iff fails as stated. -/
theorem claim_C7_counterexample :
    c7Attr1.lower = none
  ∧ keyMem (attrs_to_json_schema emptyTables [] [c7Attr1, c7Attr2] none).1 "a" = true
  ∧ "a" ∈ (attrs_to_json_schema emptyTables [] [c7Attr1, c7Attr2] none).2 := by
  refine ⟨rfl, ?_, ?_⟩
  · decide
  · decide

theorem xsdStep_cases (acc : List (String × String)) (e : XElem) :
    xsdStep acc e = acc ∨
    ∃ nm v, xsdStep acc e = insertA acc nm v ∧ strEndsWith e.tag "element" = true ∧
      pyGet e.attrs "name" = some nm ∧ xsdStripped e = some v ∧ v ≠ "" := by
  by_cases hcond : (strEndsWith e.tag "element" = true) ∧ (keyMem e.attrs "name" = true)
  · cases hstrip : xsdStripped e with
    | none =>
      left
      simp [xsdStep, hcond.1, hcond.2, hstrip]
    | some s =>
      by_cases hse : s = ""
      · left
        simp [xsdStep, hcond.1, hcond.2, hstrip, hse]
      · cases hname : pyGet e.attrs "name" with
        | none =>
          exfalso
          have h2 := hcond.2
          rw [keyMem, hname] at h2
          simp at h2
        | some nm =>
          right
          refine ⟨nm, s, ?_, hcond.1, rfl, rfl, hse⟩
          simp [xsdStep, hcond.1, hcond.2, hstrip, hse, hname]
  · left
    simp only [xsdStep, if_neg hcond]

theorem xsdStep_inserts (acc : List (String × String)) (e : XElem) (nm v : String)
    (htag : strEndsWith e.tag "element" = true) (hname : pyGet e.attrs "name" = some nm)
    (hstrip : xsdStripped e = some v) (hv : v ≠ "") :
    xsdStep acc e = insertA acc nm v := by
  have hmem : keyMem e.attrs "name" = true := by rw [keyMem, hname]; rfl
  simp [xsdStep, htag, hmem, hstrip, hv, hname]

theorem keyMem_foldl_xsdStep_mono (es : List XElem) (acc : List (String × String)) (k : String)
    (h : keyMem acc k = true) : keyMem (es.foldl xsdStep acc) k = true := by
  induction es generalizing acc with
  | nil => exact h
  | cons e rest ih =>
    rw [List.foldl_cons]
    apply ih
    rcases xsdStep_cases acc e with hc | ⟨nm, v, heq, _, _, _, _⟩
    · rw [hc]; exact h
    · rw [heq, keyMem_insertA]; simp [h]

theorem foldl_xsdStep_sound (es : List XElem) (acc : List (String × String)) (p : String × String)
    (h : p ∈ es.foldl xsdStep acc) :
    p ∈ acc ∨ ∃ e ∈ es, strEndsWith e.tag "element" = true ∧
      pyGet e.attrs "name" = some p.1 ∧ xsdStripped e = some p.2 ∧ p.2 ≠ "" := by
  induction es generalizing acc with
  | nil => left; exact h
  | cons a rest ih =>
    rw [List.foldl_cons] at h
    rcases ih _ h with hacc | ⟨e, he, hc⟩
    · rcases xsdStep_cases acc a with hca | ⟨nm, v, heq, h1, h2, h3, h4⟩
      · rw [hca] at hacc; left; exact hacc
      · rw [heq] at hacc
        rcases mem_insertA hacc with hm | ⟨hk, hvv⟩
        · left; exact hm
        · right
          refine ⟨a, List.mem_cons_self _ _, h1, ?_, ?_, ?_⟩
          · rw [hk]; exact h2
          · rw [hvv]; exact h3
          · rw [hvv]; exact h4
    · right; exact ⟨e, List.mem_cons_of_mem _ he, hc⟩

/-- C3 (amended): every entry of the XSD type map comes from a tree element
whose tag STRING merely ends with `element` (the code tests
`tag.endswith("element")`, so e.g. a `subelement` tag also qualifies), with a
`name` attribute and a truthy prefix-stripped `type`; conversely every such
element puts its name into the map.  The claim's "local tag name is exactly
`element`" is refuted by the counterexample. -/
theorem claim_C3_amended (root : XElem) :
    (∀ p ∈ build_type_map_from_xsd root, ∃ e ∈ iterElems root,
      strEndsWith e.tag "element" = true ∧ pyGet e.attrs "name" = some p.1 ∧
      xsdStripped e = some p.2 ∧ p.2 ≠ "")
  ∧ (∀ e ∈ iterElems root, ∀ nm v, strEndsWith e.tag "element" = true →
      pyGet e.attrs "name" = some nm → xsdStripped e = some v → v ≠ "" →
      keyMem (build_type_map_from_xsd root) nm = true) := by
  constructor
  · intro p hp
    rcases foldl_xsdStep_sound (iterElems root) [] p hp with h | h
    · simp at h
    · exact h
  · intro e he nm v htag hname hstrip hv
    unfold build_type_map_from_xsd
    have key : ∀ (es : List XElem) (acc : List (String × String)), e ∈ es →
        keyMem (es.foldl xsdStep acc) nm = true := by
      intro es
      induction es with
      | nil => intro acc hmem; simp at hmem
      | cons a rest ih =>
        intro acc hmem
        rcases List.mem_cons.mp hmem with rfl | hmem
        · rw [List.foldl_cons]
          apply keyMem_foldl_xsdStep_mono
          rw [xsdStep_inserts acc e nm v htag hname hstrip hv, keyMem_insertA]
          simp
        · rw [List.foldl_cons]
          exact ih _ hmem
    exact key _ [] he

def c3Root : XElem := XElem.mk "subelement" [("name", "a"), ("type", "xs:string")] none []

/-- C3 counterexample: an element whose local tag is `subelement` — not
`element` — still contributes an entry (namespace prefix stripped), because
the code checks `elem.tag.endswith("element")`, not the local tag name. -/
theorem claim_C3_counterexample :
    build_type_map_from_xsd c3Root = [("a", "string")]
  ∧ localname c3Root.tag ≠ "element" := by
  constructor
  · decide
  · decide

def c3ElemW : XElem :=
  XElem.mk "\x7bhttp://www.w3.org/2001/XMLSchema\x7delement"
    [("name", "elevation"), ("type", "xs:float")] none []

def c3RootW : XElem := XElem.mk "\x7bxs\x7dschema" [] none [c3ElemW]

/-- C3 witness: the amended completeness direction evaluated on a concrete
XSD tree. -/
theorem claim_C3_witness :
    keyMem (build_type_map_from_xsd c3RootW) "elevation" = true := by
  have hmem : c3ElemW ∈ iterElems c3RootW := by
    show c3ElemW ∈ c3RootW :: c3ElemW :: []
    exact List.mem_cons_of_mem _ (List.mem_cons_self _ _)
  exact (claim_C3_amended c3RootW).2 c3ElemW hmem "elevation" "float"
    (by decide) (by decide) (by decide) (by decide)

/-- The documentation candidate a single child offers: the text of its first
nested `body` element, when the child is an `ownedComment` and that text is
truthy (lines 60-63). -/
def commentCandidate (sub : XElem) : Option String :=
  if localname sub.tag = "ownedComment" then
    match findBody sub with
    | none => none
    | some b =>
      match b.text with
      | none => none
      | some txt => if txt = "" then none else some txt
  else none

/-- The last documentation candidate among a class element's children. -/
def lastText (subs : List XElem) : Option String :=
  match subs with
  | [] => none
  | s :: rest =>
    match lastText rest with
    | some v => some v
    | none => commentCandidate s

theorem procChild_snd_step (st : List Attr × Option String) (s : XElem) :
    (procChild st s).2 = match commentCandidate s with
      | some c => some (pyStrip c)
      | none => st.2 := by
  unfold procChild commentCandidate
  by_cases h1 : localname s.tag = "ownedAttribute"
  · rw [if_pos h1, if_neg (by rw [h1]; decide)]
    cases ownedAttrRecord s <;> rfl
  · rw [if_neg h1]
    by_cases h2 : localname s.tag = "ownedComment"
    · rw [if_pos h2, if_pos h2]
      cases findBody s with
      | none => rfl
      | some b =>
        show (match b.text with
          | none => st
          | some txt => if txt = "" then st else (st.1, some (pyStrip txt))).2 =
          match (match b.text with
            | none => none
            | some txt => if txt = "" then none else some txt : Option String) with
          | some c => some (pyStrip c)
          | none => st.2
        cases b.text with
        | none => rfl
        | some txt =>
          by_cases ht : txt = ""
          · simp [ht]
          · simp [ht]
    · rw [if_neg h2, if_neg h2]

theorem procChild_snd (subs : List XElem) (st : List Attr × Option String) :
    (subs.foldl procChild st).2 = match lastText subs with
      | some v => some (pyStrip v)
      | none => st.2 := by
  induction subs generalizing st with
  | nil => rfl
  | cons s rest ih =>
    rw [List.foldl_cons, ih]
    show _ = (match lastText (s :: rest) with
      | some v => some (pyStrip v)
      | none => st.2)
    rw [lastText]
    cases hrest : lastText rest with
    | some v => rfl
    | none =>
      simp only []
      rw [procChild_snd_step]

/-- C2 (amended): for a recognized class element, the documentation recorded
for its identifier is the stripped text of the LAST `ownedComment` child whose
first nested `body` has truthy text — a later comment body replaces an
earlier one — and the previously recorded entry is kept when no comment
qualifies. -/
theorem claim_C2_amended (acc : Tables) (e : XElem) (cname : String)
    (h1 : localname e.tag = "packagedElement")
    (h2 : pyGet e.attrs (xmiNS ++ "type") = some "uml:Class")
    (h3 : pyGet e.attrs "name" = some cname) (h4 : cname ≠ "") :
    pyGet (procElem acc e).documentation_by_id (pyGet e.attrs (xmiNS ++ "id")) =
      (match lastText e.children with
       | some v => some (pyStrip v)
       | none => pyGet acc.documentation_by_id (pyGet e.attrs (xmiNS ++ "id"))) := by
  unfold procElem
  rw [if_pos ⟨h1, h2⟩, h3]
  simp only [if_neg h4]
  have hsnd := procChild_snd e.children ([], none)
  cases hlast : lastText e.children with
  | some v =>
    rw [hlast] at hsnd
    simp only [] at hsnd
    simp only [hsnd]
    exact pyGet_insertA_self _ _ _
  | none =>
    rw [hlast] at hsnd
    simp only [] at hsnd
    simp only [hsnd]

def c2Body1 : XElem := XElem.mk "body" [] (some "A") []

def c2Body2 : XElem := XElem.mk "body" [] (some " B ") []

def c2Comment1 : XElem := XElem.mk "ownedComment" [] none [c2Body1]

def c2Comment2 : XElem := XElem.mk "ownedComment" [] none [c2Body2]

def c2Root : XElem :=
  XElem.mk "packagedElement"
    [(xmiNS ++ "type", "uml:Class"), (xmiNS ++ "id", "c1"), ("name", "X")] none
    [c2Comment1, c2Comment2]

/-- C2 counterexample: a class with two comment bodies `A` then `" B "`
records `B` (the LAST one, stripped), not the first one `A` as the claim
states. -/
theorem claim_C2_counterexample :
    pyGet (extract c2Root).documentation_by_id (some "c1") = some "B"
  ∧ (some "B" : Option String) ≠ some "A" := by
  constructor
  · decide
  · decide

/-- C2 witness: the amended last-comment rule evaluated on the concrete class
element. -/
theorem claim_C2_witness :
    pyGet (procElem emptyTables c2Root).documentation_by_id (some "c1") = some "B" := by
  have h := claim_C2_amended emptyTables c2Root "X" (by decide) (by decide) (by decide)
    (by decide)
  have hid : pyGet c2Root.attrs (xmiNS ++ "id") = some "c1" := by decide
  have hlast : lastText c2Root.children = some " B " := by decide
  rw [hid, hlast] at h
  exact h.trans (by decide)

theorem procElem_cases (acc : Tables) (e : XElem) :
    procElem acc e = acc ∨
    ∃ cname, procElem acc e = { acc with
      class_ids := insertA acc.class_ids cname (pyGet e.attrs (xmiNS ++ "id")),
      class_names_by_id := insertA acc.class_names_by_id (pyGet e.attrs (xmiNS ++ "id")) cname,
      attributes_by_id := insertA acc.attributes_by_id (pyGet e.attrs (xmiNS ++ "id"))
        (e.children.foldl procChild ([], none)).1,
      documentation_by_id := match (e.children.foldl procChild ([], none)).2 with
        | none => acc.documentation_by_id
        | some d => insertA acc.documentation_by_id (pyGet e.attrs (xmiNS ++ "id")) d } := by
  unfold procElem
  by_cases hcond : (localname e.tag = "packagedElement" ∧
      pyGet e.attrs (xmiNS ++ "type") = some "uml:Class")
  · rw [if_pos hcond]
    cases hname : pyGet e.attrs "name" with
    | none => left; rfl
    | some cname =>
      by_cases hc : cname = ""
      · left; simp only [if_pos hc]
      · right
        refine ⟨cname, ?_⟩
        simp only [if_neg hc]
  · left
    rw [if_neg hcond]

theorem procElem_doc_inv (acc : Tables) (e : XElem)
    (hinv : ∀ k, keyMem acc.documentation_by_id k = true →
      keyMem acc.class_names_by_id k = true) :
    ∀ k, keyMem (procElem acc e).documentation_by_id k = true →
      keyMem (procElem acc e).class_names_by_id k = true := by
  rcases procElem_cases acc e with h | ⟨cname, h⟩
  · rw [h]; exact hinv
  · rw [h]
    intro k hk
    simp only [] at hk ⊢
    rw [keyMem_insertA]
    cases hsnd : (e.children.foldl procChild ([], none)).2 with
    | none =>
      rw [hsnd] at hk
      simp [hinv k hk]
    | some d =>
      rw [hsnd] at hk
      rw [keyMem_insertA, Bool.or_eq_true] at hk
      rcases hk with hk | hk
      · simp [hk]
      · simp [hinv k hk]

theorem foldl_procElem_doc_inv (es : List XElem) (acc : Tables)
    (hinv : ∀ k, keyMem acc.documentation_by_id k = true →
      keyMem acc.class_names_by_id k = true) :
    ∀ k, keyMem (es.foldl procElem acc).documentation_by_id k = true →
      keyMem (es.foldl procElem acc).class_names_by_id k = true := by
  induction es generalizing acc with
  | nil => exact hinv
  | cons e rest ih =>
    rw [List.foldl_cons]
    exact ih _ (procElem_doc_inv acc e hinv)

theorem extract_doc_keys (root : XElem) :
    ∀ k, keyMem (extract root).documentation_by_id k = true →
      keyMem (extract root).class_names_by_id k = true := by
  have h := foldl_procElem_doc_inv (iterElems root) emptyTables
    (by intro k hk; simp [emptyTables, keyMem, pyGet] at hk)
  exact h

theorem attrStep_fst (t : Tables) (xm : List (String × String)) (exclude : Option (List String))
    (acc : List (String × Json) × List String) (a : Attr) :
    (attrStep t xm exclude acc a).1 =
      if pyIncluded exclude a.name = true
      then insertA acc.1 a.name (withDoc t (infer_json_type t xm a) a.id) else acc.1 := by
  unfold attrStep
  by_cases hinc : pyIncluded exclude a.name = true
  · rw [if_pos hinc, if_pos hinc]
  · rw [if_neg hinc, if_neg hinc]

theorem attrs_props_sound (t : Tables) (xm : List (String × String))
    (exclude : Option (List String)) (l : List Attr)
    (acc : List (String × Json) × List String) (p : String × Json)
    (hp : p ∈ (l.foldl (attrStep t xm exclude) acc).1) :
    p ∈ acc.1 ∨ ∃ a ∈ l, p.2 = withDoc t (infer_json_type t xm a) a.id := by
  induction l generalizing acc with
  | nil => left; exact hp
  | cons a rest ih =>
    rw [List.foldl_cons] at hp
    rcases ih _ hp with hstep | ⟨a', ha', hval⟩
    · rw [attrStep_fst] at hstep
      by_cases hinc : pyIncluded exclude a.name = true
      · rw [if_pos hinc] at hstep
        rcases mem_insertA hstep with hm | ⟨_, hv⟩
        · left; exact hm
        · right; exact ⟨a, List.mem_cons_self _ _, hv⟩
      · rw [if_neg hinc] at hstep
        left; exact hstep
    · right; exact ⟨a', List.mem_cons_of_mem _ ha', hval⟩

theorem getKey_table_description (s : String) :
    (getKey ((pyGet xsd_to_json_type s).getD (Json.obj [("type", Json.str "string")]))
      "description").isNone = true := by
  cases h : pyGet xsd_to_json_type s with
  | none => rfl
  | some v =>
    have hv := pyGet_some_mem h
    have hall : ∀ q ∈ xsd_to_json_type, (getKey q.2 "description").isNone = true := by decide
    simpa using hall (s, v) hv

theorem infer_no_description (t : Tables) (xm : List (String × String)) (a : Attr) :
    (getKey (infer_json_type t xm a) "description").isNone = true := by
  simp only [infer_json_type]
  by_cases h1 : (a.aggregation = some "composite" ∧
      (pyGet t.class_names_by_id a.type).isSome = true)
  · rw [if_pos h1]
    by_cases hu : a.upper ≠ some "1"
    · rw [if_pos hu]; rfl
    · rw [if_neg hu]; rfl
  · rw [if_neg h1]
    cases hty : pyGet xm a.name with
    | none => rfl
    | some ty =>
      show (getKey (if a.upper ≠ some "1"
          then Json.obj [("type", Json.str "array"),
            ("items", (pyGet xsd_to_json_type ty).getD (Json.obj [("type", Json.str "string")]))]
          else (pyGet xsd_to_json_type ty).getD (Json.obj [("type", Json.str "string")]))
        "description").isNone = true
      by_cases hu : a.upper ≠ some "1"
      · rw [if_pos hu]; rfl
      · rw [if_neg hu]
        exact getKey_table_description ty

theorem collect_mem_tables (t : Tables) (cname : String) (a : Attr)
    (ha : a ∈ collect_all_attributes t cname) :
    ∃ k l, pyGet t.attributes_by_id k = some l ∧ a ∈ l := by
  unfold collect_all_attributes at ha
  rw [collectLoop_eq_chain, List.mem_flatMap] at ha
  obtain ⟨c, _, hmem⟩ := ha
  cases hpg : pyGet t.attributes_by_id (some c) with
  | none => rw [hpg] at hmem; simp at hmem
  | some l =>
    rw [hpg] at hmem
    exact ⟨some c, l, hpg, by simpa using hmem⟩

/-- C10 (implicit): documentation keys are always (recognized) class
identifiers, and a `description` is attached only when the attribute's id is
such a key; hence when no stored attribute id is a class identifier, no
emitted property fragment carries a `description`. -/
theorem claim_C10 (root : XElem) (xm : List (String × String)) (cname : String)
    (exclude : Option (List String))
    (hdisj : ∀ q ∈ (extract root).attributes_by_id, ∀ a ∈ q.2,
      keyMem (extract root).class_names_by_id a.id = false) :
    (∀ k, keyMem (extract root).documentation_by_id k = true →
      keyMem (extract root).class_names_by_id k = true)
  ∧ ∀ p ∈ (attrs_to_json_schema (extract root) xm
      (collect_all_attributes (extract root) cname) exclude).1,
      (getKey p.2 "description").isNone = true := by
  refine ⟨extract_doc_keys root, ?_⟩
  intro p hp
  unfold attrs_to_json_schema at hp
  rcases attrs_props_sound _ xm exclude _ _ p hp with hnil | ⟨a, ha, hval⟩
  · simp at hnil
  · obtain ⟨k, l, hk, hal⟩ := collect_mem_tables _ cname a ha
    have hfalse : keyMem (extract root).class_names_by_id a.id = false :=
      hdisj (k, l) (pyGet_some_mem hk) a hal
    have hdocnone : pyGet (extract root).documentation_by_id a.id = none := by
      cases hdoc : pyGet (extract root).documentation_by_id a.id with
      | none => rfl
      | some d =>
        have : keyMem (extract root).class_names_by_id a.id = true :=
          extract_doc_keys root a.id (by rw [keyMem, hdoc]; rfl)
        rw [this] at hfalse
        cases hfalse
    rw [hval]
    unfold withDoc
    rw [hdocnone]
    exact infer_no_description _ xm a

def c10Body : XElem := XElem.mk "body" [] (some "doc text") []

def c10Comment : XElem := XElem.mk "ownedComment" [] none [c10Body]

def c10Attr : XElem :=
  XElem.mk "ownedAttribute" [("name", "speed"), (xmiNS ++ "id", "a1")] none []

def c10Root : XElem :=
  XElem.mk "packagedElement"
    [(xmiNS ++ "type", "uml:Class"), (xmiNS ++ "id", "c1"), ("name", "X")] none
    [c10Attr, c10Comment]

/-- C10 witness: with attribute id `a1` distinct from the class id `c1`, the
emitted property map carries no description even though the class has
documentation. -/
theorem claim_C10_witness :
    ((attrs_to_json_schema (extract c10Root) []
      (collect_all_attributes (extract c10Root) "X") none).1.all
      (fun p => (getKey p.2 "description").isNone)) = true := by
  rw [List.all_eq_true]
  exact (claim_C10 c10Root [] "X" none (by decide)).2

def c7Attr3 : Attr :=
  { name := "c", type := none, aggregation := none, id := none, lower := some "0", upper := none }

/-- C7 witness: the amended iff evaluated on a duplicate-free list. -/
theorem claim_C7_witness :
    "a" ∈ (attrs_to_json_schema emptyTables [] [c7Attr2, c7Attr3] none).2 ↔
      ((c7Attr2.lower ≠ none ∧ c7Attr2.lower ≠ some "0")) := by
  have h := claim_C7_amended emptyTables [] [c7Attr2, c7Attr3] none (by decide) c7Attr2
    (by decide) (by decide)
  simpa using h

end Wmdr
